import Mathlib

/-!
Shallow embedding of the rate-lowry food-review application, centred on the
review-ingestion path (src/unnamed/part_001, the reviews API route), the
aggregation read path (src/pages/api/foodItems.js, cached variant), and the
stations API route (src/pages/api/stations.js).

Modelling conventions:
* timestamps are natural numbers (milliseconds);
* MongoDB documents are Lean structures; the reviews collection is a list of
  (id, Review) pairs where the id stands for the Mongo ObjectId, assigned from
  a monotone counter;
* ratings are rationals (JS numbers; the handlers only range-check them);
* JS string falsiness is modelled by comparing with the empty string, and a
  missing numeric field by the value 0 (rating 0 is falsy in JS);
* the MongoDB double arithmetic of the aggregation pipeline is modelled over
  the rationals.
-/

namespace RateLowry

/-- A document of the `reviews` collection. -/
structure Review where
  foodItem : String
  station : String
  rating : ℚ
  comment : String
  reviewer : String
  imageUrl : Option String
  createdAt : Nat
  isActive : Bool
  deletedAt : Option Nat
deriving DecidableEq, Repr

/-- The `reviews` collection: Mongo ids paired with documents. -/
abbrev DB := List (Nat × Review)

/-! ## The write buffer and batch flusher (src/unnamed/part_001, lines 4-64) -/

/-- `BATCH_SIZE = 10`. -/
def BATCH_SIZE : Nat := 10

/-- An entry of `reviewQueue`: the review object built by the POST handler
together with the identity of its completion callback (`resolvePromise`). -/
structure QItem where
  sub : Review
  cid : Nat
deriving DecidableEq, Repr

/-- The value passed to a buffered submission's callback. -/
inductive CbResult where
  | success (reviewId : Nat)
  | failure
deriving DecidableEq, Repr

/-- Outcome of one run of `processReviewQueue` on a given queue. -/
structure FlushResult where
  db : DB
  nextId : Nat
  queueAfter : List QItem
  calls : List (Nat × CbResult)
deriving DecidableEq, Repr

/-- The drain loop of `processReviewQueue` (src/unnamed/part_001, lines 21-60).
Each iteration splices a batch of up to `BATCH_SIZE` items off the front of the
queue and performs one `insertMany`; `fails k` says whether the k-th
`insertMany` of this flush throws.  On success every batch item's callback is
called with the inserted id; on failure control jumps to the catch block, which
splices the *remaining* queue (the failed batch was already removed), invokes
the callbacks of those remaining items with a failure value, and leaves the
queue empty.  The callbacks of the batch whose insert failed are never invoked.
`review.createdAt || new Date()` always keeps the existing `createdAt` because
a Date object is truthy. -/
def flushLoop (fails : Nat → Bool) (k : Nat) (db : DB) (nextId : Nat)
    (queue : List QItem) : FlushResult :=
  match queue with
  | [] => ⟨db, nextId, [], []⟩
  | q :: qs =>
    let batch := (q :: qs).take BATCH_SIZE
    let rest := (q :: qs).drop BATCH_SIZE
    if fails k then
      ⟨db, nextId, [], rest.map (fun it => (it.cid, CbResult.failure))⟩
    else
      let toInsert := batch.map (fun it => { it.sub with isActive := true })
      let pairs := toInsert.enum.map (fun je => (nextId + je.1, je.2))
      let okCalls := batch.enum.map
        (fun jq => (jq.2.cid, CbResult.success (nextId + jq.1)))
      let r := flushLoop fails (k + 1) (db ++ pairs) (nextId + batch.length) rest
      ⟨r.db, r.nextId, r.queueAfter, okCalls ++ r.calls⟩
termination_by queue.length
decreasing_by
  simp only [List.length_drop, List.length_cons, BATCH_SIZE]
  omega

/-- The records a successful flush inserts for a queue segment, with ids
assigned sequentially from `i`: each submission is stored with
`isActive := true` (closed form of the `reviewsToInsert`/`insertMany` steps
of `processReviewQueue`). -/
def storedOf (i : Nat) : List QItem → DB
  | [] => []
  | q :: qs => (i, { q.sub with isActive := true }) :: storedOf (i + 1) qs

/-- The success callbacks a successful flush delivers for a queue segment,
with inserted ids assigned sequentially from `i`. -/
def callsOf (i : Nat) : List QItem → List (Nat × CbResult)
  | [] => []
  | q :: qs => (q.cid, CbResult.success i) :: callsOf (i + 1) qs

/-! ## The reviews API route handler (src/unnamed/part_001, lines 66-197) -/

/-- Mutable module state of the reviews route: the collection, the id counter,
`reviewQueue`, `processingQueue`, and a counter naming fresh callbacks. -/
structure ReviewsState where
  db : DB
  nextId : Nat
  queue : List QItem
  processing : Bool
  nextCid : Nat
deriving Repr

/-- A review document as returned by the GET branch after the Mongo
projection: the `_id` is always present, every other field only when the
projection selects it. -/
structure ProjReview where
  id : Nat
  foodItem : Option String
  station : Option String
  rating : Option ℚ
  comment : Option String
  reviewer : Option String
  imageUrl : Option (Option String)
  createdAt : Option Nat
  isActive : Option Bool
  deletedAt : Option (Option Nat)
deriving DecidableEq, Repr

/-- The default projection of the GET branch (src/unnamed/part_001,
lines 96-105): used when no `fields` parameter is supplied. -/
def defaultKeys : List String :=
  ["foodItem", "station", "rating", "comment", "reviewer", "createdAt"]

/-- Apply a Mongo projection given by a list of field names to a stored
review document. -/
def projectFields (keys : List String) (p : Nat × Review) : ProjReview where
  id := p.1
  foodItem := if "foodItem" ∈ keys then some p.2.foodItem else none
  station := if "station" ∈ keys then some p.2.station else none
  rating := if "rating" ∈ keys then some p.2.rating else none
  comment := if "comment" ∈ keys then some p.2.comment else none
  reviewer := if "reviewer" ∈ keys then some p.2.reviewer else none
  imageUrl := if "imageUrl" ∈ keys then some p.2.imageUrl else none
  createdAt := if "createdAt" ∈ keys then some p.2.createdAt else none
  isActive := if "isActive" ∈ keys then some p.2.isActive else none
  deletedAt := if "deletedAt" ∈ keys then some p.2.deletedAt else none

/-- The filter document built by the GET branch: `isActive: { $ne: false }`
always, plus `foodItem` and `station` equality filters when those query
parameters are truthy (src/unnamed/part_001, lines 79-85). -/
def getQuery (foodItem station : String) (p : Nat × Review) : Bool :=
  p.2.isActive
    && (foodItem == "" || p.2.foodItem == foodItem)
    && (station == "" || p.2.station == station)

/-- The sort `{ createdAt: -1 }` of the GET branch: newest first. -/
def newerFirst (a b : Nat × Review) : Prop :=
  b.2.createdAt ≤ a.2.createdAt

instance : DecidableRel newerFirst :=
  fun a b => inferInstanceAs (Decidable (b.2.createdAt ≤ a.2.createdAt))

/-- Response of the GET branch of the reviews route. -/
inductive GetResp where
  | badRequest (msg : String)
  | ok (reviews : List ProjReview)
deriving DecidableEq, Repr

/-- The GET branch of the reviews route (src/unnamed/part_001, lines 71-115):
requires at least one of the `foodItem`/`station` parameters, filters to
active reviews matching the truthy parameters, projects either the requested
fields or the default projection, sorts newest first, and limits to 50
documents.  The `fields` query parameter is modelled as the list of names it
is split into on commas (after trimming); `[]` stands for an absent or empty
parameter, which in the source leaves the projection object empty and falls
back to the default projection. -/
def reviewsGet (db : DB) (foodItem station : String) (fields : List String) :
    GetResp :=
  if foodItem = "" ∧ station = "" then
    GetResp.badRequest "At least one filter (foodItem or station) is required"
  else
    let proj := if fields = [] then defaultKeys else fields
    let found := ((db.filter (getQuery foodItem station)).insertionSort newerFirst).take 50
    GetResp.ok (found.map (projectFields proj))

/-- Response of the POST branch of the reviews route.  `pending cid` is the
enqueued path: the HTTP response is produced only when callback `cid` is later
invoked by the batch flusher. -/
inductive PostResp where
  | badRequest (msg : String)
  | created (reviewId : Nat) (review : Review)
  | pending (cid : Nat)
deriving DecidableEq, Repr

/-- HTTP status of a POST response (the `pending` path has no status yet;
both callback outcomes are eventually sent with status 201). -/
def PostResp.status : PostResp → Nat
  | PostResp.badRequest _ => 400
  | PostResp.created _ _ => 201
  | PostResp.pending _ => 201

/-- The POST branch of the reviews route (src/unnamed/part_001,
lines 116-170).  Validation: the four required fields must be truthy (a
rating of 0 is falsy in JS and trips the first check) and the rating must lie
in [1, 5].  `isPeakTime` is `reviewQueue.length > 0`: when the buffer is
non-empty the submission is pushed onto the queue together with a fresh
callback (and, if no flush is running and the queue has reached
`BATCH_SIZE`, `processReviewQueue` is started, which synchronously sets
`processingQueue` before suspending — the drain itself is modelled by
`flushLoop`); when the buffer is empty the document is inserted directly. -/
def reviewsPost (st : ReviewsState) (now : Nat) (foodItem station : String)
    (rating : ℚ) (comment reviewer : String) (imageUrl : Option String) :
    ReviewsState × PostResp :=
  if foodItem = "" ∨ station = "" ∨ rating = 0 ∨ comment = "" then
    (st, PostResp.badRequest "Food item, station, rating, and comment are required")
  else if rating < 1 ∨ rating > 5 then
    (st, PostResp.badRequest "Rating must be between 1 and 5")
  else
    let newReview : Review :=
      ⟨foodItem, station, rating, comment, reviewer, imageUrl, now, true, none⟩
    if st.queue ≠ [] then
      let queueAfterPush := st.queue ++ [⟨newReview, st.nextCid⟩]
      ({ st with
          queue := queueAfterPush
          nextCid := st.nextCid + 1
          processing :=
            if ¬st.processing ∧ BATCH_SIZE ≤ queueAfterPush.length then true
            else st.processing },
       PostResp.pending st.nextCid)
    else
      ({ st with
          db := st.db ++ [(st.nextId, newReview)]
          nextId := st.nextId + 1 },
       PostResp.created st.nextId newReview)

/-- Response of the DELETE branch of the reviews route. -/
inductive DelResp where
  | badRequest (msg : String)
  | notFound
  | okDeleted
deriving DecidableEq, Repr

/-- HTTP status of a DELETE response. -/
def DelResp.status : DelResp → Nat
  | DelResp.badRequest _ => 400
  | DelResp.notFound => 404
  | DelResp.okDeleted => 200

/-- `updateOne({_id}, {$set: {isActive: false, deletedAt: new Date()}})`:
update the first (in Mongo: the unique) document with the given id. -/
def updateFirstById (db : DB) (i : Nat) (now : Nat) : DB :=
  match db with
  | [] => []
  | p :: rest =>
    if p.1 = i then
      (p.1, { p.2 with isActive := false, deletedAt := some now }) :: rest
    else
      p :: updateFirstById rest i now

/-- Whether some document carries the given id (`matchedCount > 0`). -/
def hasId (db : DB) (i : Nat) : Bool :=
  db.any (fun p => p.1 == i)

/-- The DELETE branch of the reviews route (src/unnamed/part_001,
lines 171-188): requires an `id` parameter, soft-deletes by setting
`isActive = false` and `deletedAt` to the current time, answers 404 when no
document matched and 200 otherwise. -/
def reviewsDelete (db : DB) (idq : Option Nat) (now : Nat) : DB × DelResp :=
  match idq with
  | none => (db, DelResp.badRequest "Review ID is required")
  | some i =>
    if hasId db i then
      (updateFirstById db i now, DelResp.okDeleted)
    else
      (db, DelResp.notFound)

/-! ## The foodItems API route (src/pages/api/foodItems.js, cached variant) -/

/-- `CACHE_TTL = 5 * 60 * 1000`. -/
def CACHE_TTL : Nat := 5 * 60 * 1000

/-- MongoDB `$round` to an integer with ties rounded to the nearest even
value (banker's rounding), modelled over the rationals. -/
def roundHalfEven (q : ℚ) : ℤ :=
  let f := ⌊q⌋
  let frac := q - f
  if frac < 1 / 2 then f
  else if 1 / 2 < frac then f + 1
  else if f % 2 = 0 then f else f + 1

/-- `$round: [x, 1]`: round to one decimal place. -/
def round1 (q : ℚ) : ℚ :=
  (roundHalfEven (q * 10) : ℚ) / 10

/-- One element of the aggregation output of the foodItems route: the
`$group`/`$project` stages produce, per (foodItem, station) key, the rounded
average rating and the review count.  The representative-image field
(`latestImage`) of the pipeline is not modelled; no claim concerns it. -/
structure FoodItemAgg where
  foodItem : String
  station : String
  avgRating : ℚ
  reviewCount : Nat
deriving DecidableEq, Repr

/-- The `$match` stage: active reviews, restricted to a station when the
`station` parameter is truthy and not `"all"`
(src/pages/api/foodItems.js, lines 88-94 of the packed file). -/
def aggMatch (station : String) (p : Nat × Review) : Bool :=
  p.2.isActive && (station == "" || station == "all" || p.2.station == station)

/-- The grouping key of the `$group` stage. -/
def keyOf (p : Nat × Review) : String × String :=
  (p.2.foodItem, p.2.station)

/-- The aggregation entry computed for one grouping key from the matched
documents `l`. -/
def entryFor (l : List (Nat × Review)) (k : String × String) : FoodItemAgg :=
  let items := l.filter (fun p => keyOf p == k)
  { foodItem := k.1
    station := k.2
    avgRating := round1 (((items.map (fun p => p.2.rating)).sum) / (items.length : ℚ))
    reviewCount := items.length }

/-- The `$sort: { reviewCount: -1, avgRating: -1 }` stage. -/
def aggOrder (a b : FoodItemAgg) : Prop :=
  b.reviewCount < a.reviewCount ∨
    (a.reviewCount = b.reviewCount ∧ b.avgRating ≤ a.avgRating)

instance : DecidableRel aggOrder :=
  fun _ _ => inferInstanceAs (Decidable (_ ∨ _))

/-- The whole aggregation pipeline of the foodItems GET path
(src/pages/api/foodItems.js, lines 88-128 of the packed file): match active
reviews (optionally one station), group by (foodItem, station), average and
round the ratings, count, and sort by popularity then rating. -/
def aggregateFoodItems (db : DB) (station : String) : List FoodItemAgg :=
  let l := db.filter (aggMatch station)
  let keys := (l.map keyOf).dedup
  (keys.map (entryFor l)).insertionSort aggOrder

/-- The JSON body built from an aggregation run:
`{ foodItems, total, generatedAt }`. -/
structure FoodItemsResponse where
  foodItems : List FoodItemAgg
  total : Nat
  generatedAt : Nat
deriving DecidableEq, Repr

/-- One entry of the in-memory cache `Map`. -/
structure CacheEntry where
  data : FoodItemsResponse
  expiry : Nat
deriving DecidableEq, Repr

/-- The in-memory cache, keyed by `foodItems_<station or all>`. -/
abbrev Cache := List (String × CacheEntry)

/-- `cache.get` composed with `cache.has`. -/
def cacheGet (c : Cache) (k : String) : Option CacheEntry :=
  (c.find? (fun p => p.1 == k)).map (fun p => p.2)

/-- `cache.set`: replace an existing entry for the key or append a new one. -/
def cacheSet (c : Cache) (k : String) (e : CacheEntry) : Cache :=
  if (c.find? (fun p => p.1 == k)).isSome then
    c.map (fun p => if p.1 == k then (k, e) else p)
  else
    c ++ [(k, e)]

/-- The cache key `foodItems_${station || 'all'}`. -/
def cacheKeyFor (station : String) : String :=
  "foodItems_" ++ (if station = "" then "all" else station)

/-- The cache lookup performed by the handler: an entry is served only when
present and `expiry > Date.now()`; an expired entry is left in place and
ignored. -/
def validCacheHit (c : Cache) (k : String) (now : Nat) : Option CacheEntry :=
  match cacheGet c k with
  | some e => if now < e.expiry then some e else none
  | none => none

/-- The handler's response: status, body data, and whether the body was the
cached copy (`fromCache: true`). -/
structure FoodItemsResult where
  status : Nat
  data : FoodItemsResponse
  fromCache : Bool
deriving DecidableEq, Repr

/-- The GET path of the foodItems route (src/pages/api/foodItems.js,
lines 62-145 of the packed file).  `refresh` is whether the query carried
`refresh=true` (`useCache = refresh !== 'true'`).  With caching enabled, a
valid cache entry is returned as-is; otherwise the aggregation is recomputed
and, only when caching is enabled, stored with expiry `now + CACHE_TTL`. -/
def foodItemsHandler (c : Cache) (db : DB) (station : String) (refresh : Bool)
    (now : Nat) : Cache × FoodItemsResult :=
  let key := cacheKeyFor station
  let hit := if refresh then none else validCacheHit c key now
  match hit with
  | some e => (c, ⟨200, e.data, true⟩)
  | none =>
    let items := aggregateFoodItems db station
    let data : FoodItemsResponse := ⟨items, items.length, now⟩
    let cNew := if refresh then c else cacheSet c key ⟨data, now + CACHE_TTL⟩
    (cNew, ⟨200, data, false⟩)

/-- The foodItems route with its try/catch boundary: the cache check runs
before the database connection is awaited, so a valid cache hit is served even
when the database is unreachable; otherwise an unreachable database
(`dbOk = false`) lands in the catch block, a 500 with a generic body
(src/pages/api/foodItems.js, lines 147-152 of the packed file). -/
def foodItemsHandlerTotal (dbOk : Bool) (c : Cache) (db : DB) (station : String)
    (refresh : Bool) (now : Nat) : Cache × FoodItemsResult :=
  let key := cacheKeyFor station
  let hit := if refresh then none else validCacheHit c key now
  match hit with
  | some e => (c, ⟨200, e.data, true⟩)
  | none =>
    if dbOk then foodItemsHandler c db station refresh now
    else (c, ⟨500, ⟨[], 0, now⟩, false⟩)

/-! ## The stations API route (src/pages/api/stations.js) -/

/-- A document of the `stations` collection. -/
structure Station where
  name : String
  createdAt : Nat
deriving DecidableEq, Repr

/-- The hardcoded fallback list served when MongoDB is unavailable
(src/pages/api/stations.js, lines 4-10); `tInit` is the module-load time at
which the literal `new Date()` values were taken. -/
def fallbackStations (tInit : Nat) : List Station :=
  [⟨"Grill Station", tInit⟩, ⟨"Pizza Station", tInit⟩, ⟨"Salad Bar", tInit⟩,
   ⟨"Asian Station", tInit⟩, ⟨"Dessert Station", tInit⟩]

/-- Response of the stations route. -/
inductive StationsResp where
  | list (stations : List Station)
  | createdStation (stationId : Nat)
  | badRequest (msg : String)
  | serverError (msg : String)
deriving DecidableEq, Repr

/-- HTTP status of a stations response. -/
def StationsResp.status : StationsResp → Nat
  | StationsResp.list _ => 200
  | StationsResp.createdStation _ => 201
  | StationsResp.badRequest _ => 400
  | StationsResp.serverError _ => 500

/-- The GET branch of the stations route (src/pages/api/stations.js,
lines 17-24 and 42-50): on a database failure — whether the inner `find`
fails or the connection itself — the handler answers 200 with the fallback
list, not a 500; on success an empty collection is also replaced by the
fallback list. -/
def stationsGet (dbOk : Bool) (stations : List Station) (tInit : Nat) :
    StationsResp :=
  if dbOk then
    StationsResp.list (if stations.length > 0 then stations else fallbackStations tInit)
  else
    StationsResp.list (fallbackStations tInit)

/-- The POST branch of the stations route (src/pages/api/stations.js,
lines 25-37 and 42-50): a database failure lands in the catch block, which for
non-GET methods answers a generic 500. -/
def stationsPost (dbOk : Bool) (stations : List Station) (name : String)
    (now : Nat) : List Station × StationsResp :=
  if ¬dbOk then
    (stations, StationsResp.serverError "An error occurred")
  else if name = "" then
    (stations, StationsResp.badRequest "Station name is required")
  else
    (stations ++ [⟨name, now⟩], StationsResp.createdStation stations.length)

/-! ## The reviews route with its try/catch boundary -/

/-- A request to the reviews route. -/
inductive ReviewsRequest where
  | get (foodItem station : String) (fields : List String)
  | post (foodItem station : String) (rating : ℚ) (comment reviewer : String)
      (imageUrl : Option String)
  | del (idq : Option Nat)
deriving Repr

/-- A response of the reviews route, all branches together. -/
inductive ReviewsAnswer where
  | fromGet (r : GetResp)
  | fromPost (r : PostResp)
  | fromDelete (r : DelResp)
  | serverError (msg : String)
deriving DecidableEq, Repr

/-- HTTP status of a reviews response. -/
def ReviewsAnswer.status : ReviewsAnswer → Nat
  | ReviewsAnswer.fromGet (GetResp.badRequest _) => 400
  | ReviewsAnswer.fromGet (GetResp.ok _) => 200
  | ReviewsAnswer.fromPost r => r.status
  | ReviewsAnswer.fromDelete r => r.status
  | ReviewsAnswer.serverError _ => 500

/-- The reviews route handler with its try/catch boundary
(src/unnamed/part_001, lines 66-197): the first awaited call is the database
connection, so an unreachable database (`dbOk = false`) reaches the catch
block before any branch runs and answers a generic 500
(lines 193-196). -/
def reviewsHandler (dbOk : Bool) (st : ReviewsState) (now : Nat)
    (req : ReviewsRequest) : ReviewsState × ReviewsAnswer :=
  if ¬dbOk then
    (st, ReviewsAnswer.serverError "An error occurred")
  else
    match req with
    | ReviewsRequest.get foodItem station fields =>
      (st, ReviewsAnswer.fromGet (reviewsGet st.db foodItem station fields))
    | ReviewsRequest.post foodItem station rating comment reviewer imageUrl =>
      let pr := reviewsPost st now foodItem station rating comment reviewer imageUrl
      (pr.1, ReviewsAnswer.fromPost pr.2)
    | ReviewsRequest.del idq =>
      let dr := reviewsDelete st.db idq now
      ({ st with db := dr.1 }, ReviewsAnswer.fromDelete dr.2)

/-! ## Event-loop interleaving model of the ingestion path

The runtime is single-threaded and cooperative: atomic segments run between
`await` points.  For the review-ingestion path the relevant segments are:

* `arrive s`: the synchronous part of a POST for submission token `s` — the
  peak-time check and either the queue push or the direct insert
  (src/unnamed/part_001, lines 140-163; the insert itself is one database
  operation and is assumed to succeed, matching the claim's premise that
  every submission receives a success response);
* `flushStart`: the entry of `processReviewQueue` up to setting
  `processingQueue = true` (lines 12-14) — a no-op when a flush is already
  running or the queue is empty;
* `flushTake`: the synchronous splice of a batch off the queue (line 23);
* `flushDone ok`: completion of the `insertMany` for the in-flight batch —
  on success the batch is persisted and its callbacks resolved (lines 33-46),
  on failure the catch block fails the callbacks of what is left in the queue
  and drops the in-flight batch without invoking its callbacks
  (lines 49-57);
* `flushEnd`: the exit of the drain loop once the queue is empty, clearing
  `processingQueue` (line 59).

Arrivals may interleave anywhere between these segments.  Submissions are
identified by tokens; `lost` records submissions dropped by a failed batch. -/

/-- One atomic event-loop segment. -/
inductive Action where
  | arrive (s : Nat)
  | flushStart
  | flushTake
  | flushDone (ok : Bool)
  | flushEnd
deriving DecidableEq, Repr

/-- State of the ingestion path between atomic segments. -/
structure QState where
  store : List Nat
  queue : List Nat
  inflight : Option (List Nat)
  processing : Bool
  succeeded : List Nat
  failed : List Nat
  lost : List Nat
deriving DecidableEq, Repr

/-- Effect of one atomic segment; segments whose guard does not hold leave
the state unchanged (they cannot occur, or are no-ops, at such states). -/
def qstep (st : QState) : Action → QState
  | Action.arrive s =>
    if st.queue ≠ [] then
      { st with queue := st.queue ++ [s] }
    else
      { st with store := st.store ++ [s], succeeded := st.succeeded ++ [s] }
  | Action.flushStart =>
    if ¬st.processing ∧ st.queue ≠ [] then
      { st with processing := true }
    else st
  | Action.flushTake =>
    if st.processing ∧ st.inflight = none ∧ st.queue ≠ [] then
      { st with
          inflight := some (st.queue.take BATCH_SIZE)
          queue := st.queue.drop BATCH_SIZE }
    else st
  | Action.flushDone ok =>
    match st.inflight with
    | none => st
    | some b =>
      if ok then
        { st with
            store := st.store ++ b
            succeeded := st.succeeded ++ b
            inflight := none }
      else
        { st with
            failed := st.failed ++ st.queue
            queue := []
            lost := st.lost ++ b
            inflight := none }
  | Action.flushEnd =>
    if st.processing ∧ st.inflight = none ∧ st.queue = [] then
      { st with processing := false }
    else st

/-- Run a schedule of atomic segments. -/
def runTrace (st : QState) (tr : List Action) : QState :=
  tr.foldl qstep st

/-- The module's initial state: a (possibly non-empty) collection, an empty
queue, no flush running. -/
def initQState (store0 : List Nat) : QState :=
  ⟨store0, [], none, false, [], [], []⟩

/-- The submission tokens that arrive in a schedule. -/
def arrivalsOf (tr : List Action) : List Nat :=
  tr.filterMap (fun a => match a with
    | Action.arrive s => some s
    | _ => none)

/-! ## Theorems -/

/-- The review document built by the POST branch from a submission. -/
def mkReview (foodItem station : String) (rating : ℚ)
    (comment reviewer : String) (imageUrl : Option String) (now : Nat) : Review :=
  ⟨foodItem, station, rating, comment, reviewer, imageUrl, now, true, none⟩

/-- C4: a POST whose rating is 0 or 6 (or otherwise outside 1-5) is answered
with a 400 validation error and leaves the state — stored reviews and queue —
unchanged; no write is attempted.  (A rating of 0 is falsy in JS and already
trips the required-fields check; any other out-of-range rating trips the
range check.) -/
theorem post_invalid_rating_rejected (st : ReviewsState) (now : Nat)
    (foodItem station : String) (rating : ℚ) (comment reviewer : String)
    (imageUrl : Option String)
    (hr : rating < 1 ∨ rating > 5) :
    (reviewsPost st now foodItem station rating comment reviewer imageUrl).1 = st ∧
    (reviewsPost st now foodItem station rating comment reviewer imageUrl).2.status = 400 := by
  unfold reviewsPost
  by_cases h1 : foodItem = "" ∨ station = "" ∨ rating = 0 ∨ comment = ""
  · simp [h1, PostResp.status]
  · simp [h1, hr, PostResp.status]

/-- C4 witness: rating 6 with otherwise valid fields is rejected with 400 and
the state is unchanged. -/
theorem post_invalid_rating_rejected_witness :
    ((6 : ℚ) < 1 ∨ (6 : ℚ) > 5) ∧
    ((reviewsPost ⟨[], 0, [], false, 0⟩ 5 "Pizza" "Grill Station" 6 "too salty" "Anonymous" none).1
        = ⟨[], 0, [], false, 0⟩ ∧
      (reviewsPost ⟨[], 0, [], false, 0⟩ 5 "Pizza" "Grill Station" 6 "too salty" "Anonymous" none).2.status
        = 400) :=
  ⟨Or.inr (by norm_num),
   post_invalid_rating_rejected ⟨[], 0, [], false, 0⟩ 5 "Pizza" "Grill Station" 6
     "too salty" "Anonymous" none (Or.inr (by norm_num))⟩

/-- C6: a valid POST is enqueued exactly when the write buffer is non-empty
at arrival time; when the buffer is empty the document is written directly to
the collection with a single insert, and when it is non-empty the collection
is untouched and the submission is appended to the buffer. -/
theorem enqueue_iff_buffer_nonempty (st : ReviewsState) (now : Nat)
    (foodItem station : String) (rating : ℚ) (comment reviewer : String)
    (imageUrl : Option String)
    (hf : foodItem ≠ "") (hs : station ≠ "") (hc : comment ≠ "")
    (h1 : 1 ≤ rating) (h5 : rating ≤ 5) :
    ((∃ cid, (reviewsPost st now foodItem station rating comment reviewer imageUrl).2
        = PostResp.pending cid) ↔ st.queue ≠ []) ∧
    (st.queue = [] →
      (reviewsPost st now foodItem station rating comment reviewer imageUrl).1.db
          = st.db ++ [(st.nextId, mkReview foodItem station rating comment reviewer imageUrl now)] ∧
      (reviewsPost st now foodItem station rating comment reviewer imageUrl).1.queue = []) ∧
    (st.queue ≠ [] →
      (reviewsPost st now foodItem station rating comment reviewer imageUrl).1.db = st.db ∧
      (reviewsPost st now foodItem station rating comment reviewer imageUrl).1.queue
          = st.queue ++ [⟨mkReview foodItem station rating comment reviewer imageUrl now, st.nextCid⟩]) := by
  have h0 : rating ≠ 0 := by
    intro h
    rw [h] at h1
    norm_num at h1
  have hv : ¬(foodItem = "" ∨ station = "" ∨ rating = 0 ∨ comment = "") := by
    simp [hf, hs, hc, h0]
  have hrange : ¬(rating < 1 ∨ rating > 5) := by
    push_neg
    exact ⟨h1, h5⟩
  unfold reviewsPost
  by_cases hq : st.queue = []
  · simp [hv, hrange, hq, mkReview]
  · simp [hv, hrange, hq, mkReview]

/-- C6 witness: with an empty buffer the POST is a direct insert; the
response is not the enqueued one. -/
theorem enqueue_iff_buffer_nonempty_witness :
    ((∃ cid, (reviewsPost ⟨[], 7, [], false, 0⟩ 5 "Pizza" "Grill Station" 4 "crispy" "Anonymous" none).2
        = PostResp.pending cid) ↔ ([] : List QItem) ≠ []) ∧
    (([] : List QItem) = [] →
      (reviewsPost ⟨[], 7, [], false, 0⟩ 5 "Pizza" "Grill Station" 4 "crispy" "Anonymous" none).1.db
          = [] ++ [(7, mkReview "Pizza" "Grill Station" 4 "crispy" "Anonymous" none 5)] ∧
      (reviewsPost ⟨[], 7, [], false, 0⟩ 5 "Pizza" "Grill Station" 4 "crispy" "Anonymous" none).1.queue = []) ∧
    (([] : List QItem) ≠ [] →
      (reviewsPost ⟨[], 7, [], false, 0⟩ 5 "Pizza" "Grill Station" 4 "crispy" "Anonymous" none).1.db = [] ∧
      (reviewsPost ⟨[], 7, [], false, 0⟩ 5 "Pizza" "Grill Station" 4 "crispy" "Anonymous" none).1.queue
          = [] ++ [⟨mkReview "Pizza" "Grill Station" 4 "crispy" "Anonymous" none 5, 0⟩]) :=
  enqueue_iff_buffer_nonempty ⟨[], 7, [], false, 0⟩ 5 "Pizza" "Grill Station" 4
    "crispy" "Anonymous" none (by decide) (by decide) (by decide)
    (by norm_num) (by norm_num)

/-! ### C1: behaviour of the batch flusher on a failed insert -/

/-- A sample review document used in concrete runs. -/
def sampleReview : Review :=
  ⟨"Pizza", "Grill Station", 4, "crispy crust", "Anonymous", none, 100, true, none⟩

/-- The property asserted by the claim for a failing flush: every submission
buffered for the flush cycle has its callback invoked with a failure value. -/
def allCallbacksFailed (queue : List QItem) (r : FlushResult) : Prop :=
  ∀ q ∈ queue, (q.cid, CbResult.failure) ∈ r.calls

instance (queue : List QItem) (r : FlushResult) :
    Decidable (allCallbacksFailed queue r) :=
  inferInstanceAs (Decidable (∀ q ∈ queue, _ ∈ _))

/-- C1 counterexample: a flush of a single buffered submission whose batch
insert fails invokes no callback at all — the failed batch was already
spliced off the queue, so the catch block's failure notifications reach only
the submissions still queued behind it (here: none).  The submission is
nevertheless dropped and not persisted. -/
theorem batch_failure_callbacks_counterexample :
    ¬ allCallbacksFailed [⟨sampleReview, 0⟩]
        (flushLoop (fun _ => true) 0 [] 0 [⟨sampleReview, 0⟩]) ∧
    (flushLoop (fun _ => true) 0 [] 0 [⟨sampleReview, 0⟩]).calls = [] ∧
    (flushLoop (fun _ => true) 0 [] 0 [⟨sampleReview, 0⟩]).db = [] ∧
    (flushLoop (fun _ => true) 0 [] 0 [⟨sampleReview, 0⟩]).queueAfter = [] := by
  rw [flushLoop]
  simp [allCallbacksFailed, BATCH_SIZE]

/-- C1 (amended): when the k-th batch insert of a flush cycle fails (shown
here at the state reached at that iteration, with an arbitrary remaining
queue), the submissions still in the queue behind the failed batch have their
callbacks invoked with a failure value; the submissions of the failed batch
itself are dropped without their callbacks ever being invoked; nothing is
persisted, retried, or left in the queue. -/
theorem batch_failure_behavior (fails : Nat → Bool) (db : DB) (nextId : Nat)
    (queue : List QItem) (hq : queue ≠ []) (hf : fails 0 = true) :
    flushLoop fails 0 db nextId queue =
      ⟨db, nextId, [],
        (queue.drop BATCH_SIZE).map (fun it => (it.cid, CbResult.failure))⟩ := by
  match queue, hq with
  | q :: qs, _ =>
    rw [flushLoop]
    simp [hf]

/-- C1 witness: a failing flush over a queue of twelve buffered submissions
leaves the collection untouched, empties the queue, and sends failure
callbacks exactly to the two submissions that were behind the failed batch of
ten. -/
theorem batch_failure_behavior_witness :
    flushLoop (fun _ => true) 0 [] 0
        ((List.range 12).map (fun j => ⟨sampleReview, j⟩)) =
      ⟨[], 0, [],
        ((((List.range 12).map (fun j => (⟨sampleReview, j⟩ : QItem))).drop BATCH_SIZE).map
          (fun it => (it.cid, CbResult.failure)))⟩ :=
  batch_failure_behavior (fun _ => true) [] 0
    ((List.range 12).map (fun j => ⟨sampleReview, j⟩)) (by decide) rfl

/-! ### C5: soft delete and its repetition -/

/-- The document currently carried by the first (in Mongo: the unique)
record with a given id. -/
def firstWithId (db : DB) (i : Nat) : Option Review :=
  (db.find? (fun p => p.1 == i)).map (fun p => p.2)

/-- `updateFirstById` preserves the collection's size: the record is soft
deleted, not removed. -/
theorem updateFirstById_length (db : DB) (i now : Nat) :
    (updateFirstById db i now).length = db.length := by
  induction db with
  | nil => rfl
  | cons p rest ih =>
    unfold updateFirstById
    by_cases h : p.1 = i <;> simp [h, ih]

/-- Soft deleting rewrites exactly the first record with the id. -/
theorem firstWithId_updateFirstById (db : DB) (i now : Nat) :
    firstWithId (updateFirstById db i now) i
      = (firstWithId db i).map
          (fun r => { r with isActive := false, deletedAt := some now }) := by
  induction db with
  | nil => rfl
  | cons p rest ih =>
    unfold updateFirstById
    by_cases h : p.1 = i
    · simp [firstWithId, List.find?, h]
    · have hb : (p.1 == i) = false := by simp [h]
      simp only [if_neg h]
      simp only [firstWithId, List.find?, hb] at ih ⊢
      simpa using ih

/-- Soft deleting does not change which ids are present. -/
theorem hasId_updateFirstById (db : DB) (i now j : Nat) :
    hasId (updateFirstById db i now) j = hasId db j := by
  induction db with
  | nil => rfl
  | cons p rest ih =>
    unfold updateFirstById
    simp only [hasId, List.any_cons] at ih ⊢
    by_cases h : p.1 = i
    · simp [h, ih]
    · simp [h, ih]

/-- A record found by id exists in the collection (`matchedCount > 0`). -/
theorem hasId_of_firstWithId (db : DB) (i : Nat) (r : Review)
    (h : firstWithId db i = some r) : hasId db i = true := by
  unfold firstWithId at h
  cases hf : db.find? (fun p => p.1 == i) with
  | none => rw [hf] at h; simp at h
  | some q =>
    have hq := List.mem_of_find?_eq_some hf
    have hpq := List.find?_some hf
    unfold hasId
    rw [List.any_eq_true]
    exact ⟨q, hq, hpq⟩

/-- Soft deleting a record that is already inactive does not change the set
of documents matched by the aggregation pipeline. -/
theorem filter_aggMatch_updateFirstById (db : DB) (i now : Nat)
    (station : String)
    (h : ∀ r, firstWithId db i = some r → r.isActive = false) :
    (updateFirstById db i now).filter (aggMatch station)
      = db.filter (aggMatch station) := by
  induction db with
  | nil => rfl
  | cons p rest ih =>
    by_cases hp : p.1 = i
    · have hpi : p.2.isActive = false :=
        h p.2 (by simp [firstWithId, List.find?, hp])
      unfold updateFirstById
      simp [hp, List.filter_cons, aggMatch, hpi]
    · have hb : (p.1 == i) = false := by simp [hp]
      have h' : ∀ r, firstWithId rest i = some r → r.isActive = false := by
        intro r hrr
        exact h r (by simpa [firstWithId, List.find?, hb] using hrr)
      unfold updateFirstById
      simp only [if_neg hp, List.filter_cons]
      rw [ih h']

/-- The aggregation output only depends on the matched documents. -/
theorem aggregateFoodItems_congr (db1 db2 : DB) (station : String)
    (h : db1.filter (aggMatch station) = db2.filter (aggMatch station)) :
    aggregateFoodItems db1 station = aggregateFoodItems db2 station := by
  unfold aggregateFoodItems
  rw [h]

/-- C5 counterexample: deleting the same review twice, at times 100 and 200,
answers 200 (success, not a 404) to the second delete and does change the
record — its `deletedAt` is overwritten with the later timestamp — refuting
that a second delete either makes no change to the record or reports
not-found. -/
theorem second_delete_modifies_record_counterexample :
    (reviewsDelete (reviewsDelete [(0, sampleReview)] (some 0) 100).1 (some 0) 200).2
        = DelResp.okDeleted ∧
    (reviewsDelete (reviewsDelete [(0, sampleReview)] (some 0) 100).1 (some 0) 200).1
        ≠ (reviewsDelete [(0, sampleReview)] (some 0) 100).1 := by
  constructor
  · rfl
  · simp [reviewsDelete, hasId, updateFirstById, sampleReview]

/-- C5 (amended): deleting a stored review sets `isActive = false` and
`deletedAt` to the request time while the record stays in the collection
(same size, still found by id); a second delete of the same id answers
success again (not not-found) and changes only the record's `deletedAt`
timestamp, keeping it inactive, so aggregate counts and means are unchanged
by the second delete. -/
theorem soft_delete_behavior (db : DB) (i now now2 : Nat) (r : Review)
    (station : String) (hr : firstWithId db i = some r) :
    (reviewsDelete db (some i) now).2 = DelResp.okDeleted ∧
    (reviewsDelete db (some i) now).1.length = db.length ∧
    firstWithId (reviewsDelete db (some i) now).1 i
      = some { r with isActive := false, deletedAt := some now } ∧
    (reviewsDelete (reviewsDelete db (some i) now).1 (some i) now2).2
      = DelResp.okDeleted ∧
    firstWithId (reviewsDelete (reviewsDelete db (some i) now).1 (some i) now2).1 i
      = some { r with isActive := false, deletedAt := some now2 } ∧
    aggregateFoodItems
        (reviewsDelete (reviewsDelete db (some i) now).1 (some i) now2).1 station
      = aggregateFoodItems (reviewsDelete db (some i) now).1 station := by
  have h1 : hasId db i = true := hasId_of_firstWithId db i r hr
  have hd1 : (reviewsDelete db (some i) now).1 = updateFirstById db i now := by
    simp [reviewsDelete, h1]
  have h2 : hasId (updateFirstById db i now) i = true := by
    rw [hasId_updateFirstById, h1]
  have hfirst1 : firstWithId (updateFirstById db i now) i
      = some { r with isActive := false, deletedAt := some now } := by
    rw [firstWithId_updateFirstById, hr]
    rfl
  have hd2 : (reviewsDelete (updateFirstById db i now) (some i) now2).1
      = updateFirstById (updateFirstById db i now) i now2 := by
    simp [reviewsDelete, h2]
  refine ⟨by simp [reviewsDelete, h1], ?_, ?_, ?_, ?_, ?_⟩
  · rw [hd1, updateFirstById_length]
  · rw [hd1, hfirst1]
  · rw [hd1]
    simp [reviewsDelete, h2]
  · rw [hd1, hd2, firstWithId_updateFirstById, hfirst1]
    rfl
  · rw [hd1, hd2]
    refine aggregateFoodItems_congr _ _ _ ?_
    refine filter_aggMatch_updateFirstById _ _ _ _ ?_
    intro r' hr'
    rw [hfirst1] at hr'
    cases hr'
    rfl

/-- C5 witness: the soft-delete behaviour at a concrete one-review
collection, deleted at times 100 and then 200. -/
theorem soft_delete_behavior_witness :
    (reviewsDelete [(0, sampleReview)] (some 0) 100).2 = DelResp.okDeleted ∧
    (reviewsDelete [(0, sampleReview)] (some 0) 100).1.length
      = [(0, sampleReview)].length ∧
    firstWithId (reviewsDelete [(0, sampleReview)] (some 0) 100).1 0
      = some { sampleReview with isActive := false, deletedAt := some 100 } ∧
    (reviewsDelete (reviewsDelete [(0, sampleReview)] (some 0) 100).1 (some 0) 200).2
      = DelResp.okDeleted ∧
    firstWithId
        (reviewsDelete (reviewsDelete [(0, sampleReview)] (some 0) 100).1 (some 0) 200).1 0
      = some { sampleReview with isActive := false, deletedAt := some 200 } ∧
    aggregateFoodItems
        (reviewsDelete (reviewsDelete [(0, sampleReview)] (some 0) 100).1 (some 0) 200).1
        "Grill Station"
      = aggregateFoodItems (reviewsDelete [(0, sampleReview)] (some 0) 100).1
          "Grill Station" :=
  soft_delete_behavior [(0, sampleReview)] 0 100 200 sampleReview
    "Grill Station" rfl

/-! ### C2: the aggregate rating versus the arithmetic mean -/

/-- The active reviews of one food item at one station. -/
def activeReviewsFor (db : DB) (f s : String) : List (Nat × Review) :=
  db.filter (fun p => p.2.isActive && p.2.foodItem == f && p.2.station == s)

/-- Modelled from the spec: the arithmetic mean of the ratings of the active
reviews of one food item and station — the value the spec asserts the
aggregate equals.  Stated for comparison with the pipeline's rounded
average. -/
def meanRating (db : DB) (f s : String) : ℚ :=
  ((activeReviewsFor db f s).map (fun p => p.2.rating)).sum
    / ((activeReviewsFor db f s).length : ℚ)

/-- The documents grouped under a key of the aggregation are exactly the
active reviews of that food item and station, provided the key is compatible
with the station filter. -/
theorem filter_key_eq_activeReviewsFor (db : DB) (station : String)
    (k : String × String)
    (hst : station = "" ∨ station = "all" ∨ k.2 = station) :
    (db.filter (aggMatch station)).filter (fun p => keyOf p == k)
      = activeReviewsFor db k.1 k.2 := by
  rw [List.filter_filter]
  unfold activeReviewsFor
  apply List.filter_congr
  intro p _
  by_cases hk : keyOf p = k
  · have hf : p.2.foodItem = k.1 := by rw [← hk]; rfl
    have hs : p.2.station = k.2 := by rw [← hk]; rfl
    simp only [hk, aggMatch, beq_self_eq_true, Bool.true_and, hf, hs]
    rcases hst with h | h | h
    · simp [h]
    · simp [h]
    · have hps : p.2.station = station := hs.trans h
      simp [hps, h]
  · have hb : (keyOf p == k) = false := by simp [hk]
    have : ¬(p.2.foodItem = k.1 ∧ p.2.station = k.2) := by
      intro hc
      exact hk (by simp [keyOf, hc.1, hc.2])
    simp only [hb, Bool.false_and]
    by_cases h1 : p.2.foodItem = k.1
    · have h2 : p.2.station ≠ k.2 := fun h2 => this ⟨h1, h2⟩
      simp [h2]
    · simp [h1]

/-- C2 counterexample: three active reviews of the same food item with
ratings 1, 1 and 2 have arithmetic mean 4/3, but the aggregation pipeline
returns 13/10 — the mean rounded to one decimal place — so the returned
aggregate does not equal the arithmetic mean. -/
def cexDb : DB :=
  [(0, ⟨"Pizza", "Grill Station", 1, "a", "Anonymous", none, 1, true, none⟩),
   (1, ⟨"Pizza", "Grill Station", 1, "b", "Anonymous", none, 2, true, none⟩),
   (2, ⟨"Pizza", "Grill Station", 2, "c", "Anonymous", none, 3, true, none⟩)]

/-- C2 counterexample: the pipeline's aggregate rating for the concrete
collection `cexDb` is 13/10 while the arithmetic mean of the same active
reviews is 4/3. -/
theorem aggregate_mean_counterexample :
    aggregateFoodItems cexDb "" = [⟨"Pizza", "Grill Station", 13 / 10, 3⟩] ∧
    meanRating cexDb "Pizza" "Grill Station" = 4 / 3 ∧
    ((13 : ℚ) / 10) ≠ 4 / 3 := by
  refine ⟨?_, ?_, by norm_num⟩
  · norm_num [aggregateFoodItems, cexDb, aggMatch, keyOf, entryFor, round1,
      roundHalfEven, List.dedup, List.insertionSort, List.filter, List.pwFilter]
  · norm_num [meanRating, activeReviewsFor, cexDb, List.filter]

/-- C2 (amended): every aggregate entry returned by the foodItems read path
carries the arithmetic mean of the ratings of that item's active
(`isActive` not `false`) reviews rounded to one decimal place, together with
their count, and appending a soft-deleted review leaves the whole aggregate
output unchanged. -/
theorem aggregate_rounded_mean_of_active (db : DB) (station : String)
    (e : FoodItemAgg) (he : e ∈ aggregateFoodItems db station)
    (i : Nat) (r : Review) (hri : r.isActive = false) :
    e.avgRating = round1 (meanRating db e.foodItem e.station) ∧
    e.reviewCount = (activeReviewsFor db e.foodItem e.station).length ∧
    aggregateFoodItems (db ++ [(i, r)]) station = aggregateFoodItems db station := by
  have hinv : aggregateFoodItems (db ++ [(i, r)]) station
      = aggregateFoodItems db station := by
    apply aggregateFoodItems_congr
    rw [List.filter_append]
    simp [aggMatch, hri]
  unfold aggregateFoodItems at he
  rw [List.Perm.mem_iff (List.perm_insertionSort _ _), List.mem_map] at he
  obtain ⟨k, hk, hek⟩ := he
  rw [List.mem_dedup, List.mem_map] at hk
  obtain ⟨p, hp, hkp⟩ := hk
  have hpm : aggMatch station p = true := List.of_mem_filter hp
  have hst : station = "" ∨ station = "all" ∨ k.2 = station := by
    have hs2 : k.2 = p.2.station := by rw [← hkp]; rfl
    unfold aggMatch at hpm
    simp only [Bool.and_eq_true, Bool.or_eq_true, beq_iff_eq] at hpm
    rcases hpm.2 with (h | h) | h
    · exact Or.inl h
    · exact Or.inr (Or.inl h)
    · refine Or.inr (Or.inr ?_)
      rw [hs2]
      exact h
  have hfeq := filter_key_eq_activeReviewsFor db station k hst
  subst hek
  have hfood : (entryFor (db.filter (aggMatch station)) k).foodItem = k.1 := rfl
  have hstat : (entryFor (db.filter (aggMatch station)) k).station = k.2 := rfl
  have havg : (entryFor (db.filter (aggMatch station)) k).avgRating
      = round1 ((((db.filter (aggMatch station)).filter (fun p => keyOf p == k)).map
            (fun p => p.2.rating)).sum
          / (((db.filter (aggMatch station)).filter (fun p => keyOf p == k)).length : ℚ)) :=
    rfl
  have hcount : (entryFor (db.filter (aggMatch station)) k).reviewCount
      = ((db.filter (aggMatch station)).filter (fun p => keyOf p == k)).length := rfl
  refine ⟨?_, ?_, hinv⟩
  · rw [havg, hfood, hstat, hfeq]
    simp only [meanRating]
  · rw [hcount, hfood, hstat, hfeq]

/-- C2 witness: the amended statement at the concrete collection `cexDb`,
its single aggregate entry, and an appended soft-deleted review. -/
theorem aggregate_rounded_mean_of_active_witness :
    (⟨"Pizza", "Grill Station", 13 / 10, 3⟩ : FoodItemAgg).avgRating
      = round1 (meanRating cexDb
          (⟨"Pizza", "Grill Station", 13 / 10, 3⟩ : FoodItemAgg).foodItem
          (⟨"Pizza", "Grill Station", 13 / 10, 3⟩ : FoodItemAgg).station) ∧
    (⟨"Pizza", "Grill Station", 13 / 10, 3⟩ : FoodItemAgg).reviewCount
      = (activeReviewsFor cexDb
          (⟨"Pizza", "Grill Station", 13 / 10, 3⟩ : FoodItemAgg).foodItem
          (⟨"Pizza", "Grill Station", 13 / 10, 3⟩ : FoodItemAgg).station).length ∧
    aggregateFoodItems
        (cexDb ++ [(9, ⟨"Pasta", "Grill Station", 5, "z", "Anonymous", none, 9, false, some 10⟩)]) ""
      = aggregateFoodItems cexDb "" :=
  aggregate_rounded_mean_of_active cexDb "" ⟨"Pizza", "Grill Station", 13 / 10, 3⟩
    (by norm_num [aggregateFoodItems, cexDb, aggMatch, keyOf, entryFor, round1,
      roundHalfEven, List.dedup, List.insertionSort, List.filter, List.pwFilter])
    9 ⟨"Pasta", "Grill Station", 5, "z", "Anonymous", none, 9, false, some 10⟩ rfl

/-! ### C3: a valid POST is retrievable by the subsequent GET -/

/-- Sorting newest-first puts an element strictly newer than all others at
the head. -/
theorem insertionSort_append_strict_max (m : List (Nat × Review))
    (x : Nat × Review) (h : ∀ y ∈ m, ¬ newerFirst y x) :
    ∃ s, (m ++ [x]).insertionSort newerFirst = x :: s := by
  induction m with
  | nil => exact ⟨[], rfl⟩
  | cons a t ih =>
    obtain ⟨s, hs⟩ := ih (fun y hy => h y (List.mem_cons_of_mem a hy))
    have hax : ¬ newerFirst a x := h a (List.mem_cons_self a t)
    refine ⟨List.orderedInsert newerFirst a s, ?_⟩
    show List.insertionSort newerFirst (a :: (t ++ [x])) = _
    rw [List.insertionSort, hs, List.orderedInsert, if_neg hax]

/-- A `fields` parameter requesting every stored field. -/
def allFieldsList : List String :=
  ["foodItem", "station", "rating", "comment", "reviewer", "imageUrl",
   "createdAt", "isActive", "deletedAt"]

/-- The enumerated insert pairs built by one flush batch equal `storedOf`,
for any enumeration offset. -/
theorem stored_pairs_from (b : List QItem) : ∀ (i n : Nat),
    ((b.map (fun it => { it.sub with isActive := true })).enumFrom n).map
        (fun je => (i + je.1, je.2)) = storedOf (i + n) b := by
  induction b with
  | nil => intro i n; rfl
  | cons x xs ih =>
    intro i n
    simp only [List.map_cons, List.enumFrom_cons, storedOf]
    rw [ih i (n + 1), ← Nat.add_assoc]

/-- The enumerated insert pairs built by one flush batch equal `storedOf`. -/
theorem stored_pairs (i : Nat) (b : List QItem) :
    ((b.map (fun it => { it.sub with isActive := true })).enum).map
        (fun je => (i + je.1, je.2)) = storedOf i b := by
  have h := stored_pairs_from b i 0
  rw [Nat.add_zero] at h
  rw [List.enum_eq_enumFrom]
  exact h

/-- The enumerated success callbacks of one flush batch equal `callsOf`,
for any enumeration offset. -/
theorem calls_pairs_from (b : List QItem) : ∀ (i n : Nat),
    (b.enumFrom n).map (fun jq => (jq.2.cid, CbResult.success (i + jq.1)))
      = callsOf (i + n) b := by
  induction b with
  | nil => intro i n; rfl
  | cons x xs ih =>
    intro i n
    simp only [List.enumFrom_cons, List.map_cons, callsOf]
    rw [ih i (n + 1), ← Nat.add_assoc]

/-- The enumerated success callbacks of one flush batch equal `callsOf`. -/
theorem calls_pairs (i : Nat) (b : List QItem) :
    b.enum.map (fun jq => (jq.2.cid, CbResult.success (i + jq.1)))
      = callsOf i b := by
  have h := calls_pairs_from b i 0
  rw [Nat.add_zero] at h
  rw [List.enum_eq_enumFrom]
  exact h

/-- `storedOf` distributes over queue concatenation, shifting the ids. -/
theorem storedOf_append : ∀ (b r : List QItem) (i : Nat),
    storedOf i (b ++ r) = storedOf i b ++ storedOf (i + b.length) r := by
  intro b
  induction b with
  | nil => intro r i; simp [storedOf]
  | cons x xs ih =>
    intro r i
    simp only [List.cons_append, storedOf, List.length_cons, List.append_eq]
    rw [ih r (i + 1)]
    have hadd : i + 1 + xs.length = i + (xs.length + 1) := by omega
    rw [hadd]

/-- `callsOf` distributes over queue concatenation, shifting the ids. -/
theorem callsOf_append : ∀ (b r : List QItem) (i : Nat),
    callsOf i (b ++ r) = callsOf i b ++ callsOf (i + b.length) r := by
  intro b
  induction b with
  | nil => intro r i; simp [callsOf]
  | cons x xs ih =>
    intro r i
    simp only [List.cons_append, callsOf, List.length_cons, List.append_eq]
    rw [ih r (i + 1)]
    have hadd : i + 1 + xs.length = i + (xs.length + 1) := by omega
    rw [hadd]

/-- A flush whose inserts all succeed drains the whole queue, appends every
submission to the collection with `isActive := true` and sequential ids, and
delivers a success callback with its id to every submission. -/
theorem flushLoop_success (fails : Nat → Bool) (hflushOk : ∀ k, fails k = false) :
    ∀ (n : Nat) (queue : List QItem), queue.length ≤ n →
    ∀ (k : Nat) (db : DB) (nextId : Nat),
    flushLoop fails k db nextId queue
      = ⟨db ++ storedOf nextId queue, nextId + queue.length, [],
          callsOf nextId queue⟩ := by
  intro n
  induction n with
  | zero =>
    intro queue hlen k db nextId
    have hq : queue = [] := List.length_eq_zero.mp (Nat.le_zero.mp hlen)
    subst hq
    simp [flushLoop, storedOf, callsOf]
  | succ n ih =>
    intro queue hlen k db nextId
    match queue with
    | [] => simp [flushLoop, storedOf, callsOf]
    | q :: qs =>
      have hdrop : ((q :: qs).drop BATCH_SIZE).length ≤ n := by
        simp only [List.length_drop, List.length_cons, BATCH_SIZE]
        simp only [List.length_cons] at hlen
        omega
      have hlen2 := congrArg List.length (List.take_append_drop BATCH_SIZE (q :: qs))
      rw [List.length_append] at hlen2
      rw [flushLoop]
      simp only []
      rw [hflushOk k]
      rw [if_neg (show ¬(false = true) by simp)]
      rw [ih ((q :: qs).drop BATCH_SIZE) hdrop]
      simp only []
      congr 1
      · rw [List.append_assoc]
        congr 1
        rw [stored_pairs nextId ((q :: qs).take BATCH_SIZE), ← storedOf_append,
          List.take_append_drop]
      · simp only [List.length_cons] at hlen2 ⊢
        omega
      · rw [calls_pairs nextId ((q :: qs).take BATCH_SIZE), ← callsOf_append,
          List.take_append_drop]

/-- Every record a flush stores comes from a queued submission, stored with
`isActive := true`. -/
theorem mem_storedOf : ∀ (queue : List QItem) (i : Nat) (p : Nat × Review),
    p ∈ storedOf i queue → ∃ q ∈ queue, p.2 = { q.sub with isActive := true } := by
  intro queue
  induction queue with
  | nil => intro i p hp; simp [storedOf] at hp
  | cons x xs ih =>
    intro i p hp
    simp only [storedOf, List.mem_cons] at hp
    rcases hp with h | h
    · exact ⟨x, List.mem_cons_self x xs, by rw [h]⟩
    · obtain ⟨q, hq, hpe⟩ := ih (i + 1) p h
      exact ⟨q, List.mem_cons_of_mem x hq, hpe⟩

/-- A record matching the GET filter and strictly newer than everything else
in the collection is returned first by the GET branch (newest-first sort,
within the 50-document limit), under the all-fields projection. -/
theorem reviewsGet_head (base : DB) (idx : Nat) (r : Review)
    (foodItem station : String) (hf : foodItem ≠ "")
    (hmatch : getQuery foodItem station (idx, r) = true)
    (hfresh : ∀ y ∈ base, y.2.createdAt < r.createdAt) :
    ∃ rest, reviewsGet (base ++ [(idx, r)]) foodItem station allFieldsList
      = GetResp.ok (projectFields allFieldsList (idx, r) :: rest) := by
  have hnv : ¬(foodItem = "" ∧ station = "") := fun hb => hf hb.1
  have hfil : (base ++ [(idx, r)]).filter (getQuery foodItem station)
      = base.filter (getQuery foodItem station) ++ [(idx, r)] := by
    rw [List.filter_append]
    simp [hmatch]
  obtain ⟨s, hsort⟩ := insertionSort_append_strict_max
    (base.filter (getQuery foodItem station)) (idx, r)
    (by
      intro y hy
      have hlt := hfresh y (List.mem_of_mem_filter hy)
      unfold newerFirst
      simp only []
      omega)
  refine ⟨(s.take 49).map (projectFields allFieldsList), ?_⟩
  unfold reviewsGet
  rw [if_neg hnv]
  simp only [hfil, hsort]
  have hne : allFieldsList ≠ [] := by simp [allFieldsList]
  rw [if_neg hne]
  rw [List.take_succ_cons, List.map_cons]

/-- C3: a POST with non-empty foodItem, station and comment and a rating in
[1, 5] arrives at an arbitrary buffer state.  When the buffer is empty at
arrival the submission is written directly: the handler answers 201 with the
created record, exactly the submitted values are stored together with
`isActive = true` and the request time as `createdAt`, and a subsequent GET
for that foodItem and station (requesting all fields) returns that record —
first, being the newest.  When the buffer is non-empty the submission is
enqueued with a fresh callback, and the next flush whose inserts succeed
stores exactly the same record (submitted values plus `isActive = true`),
answers the caller's callback with success and the inserted id (which the
handler then sends as the 201 response), and a subsequent GET for that
foodItem and station returns the record. -/
theorem post_create_then_get_returns_record
    (db : DB) (nextId cid now : Nat) (queue : List QItem) (processing : Bool)
    (fails : Nat → Bool) (foodItem station : String) (rating : ℚ)
    (comment reviewer : String) (imageUrl : Option String)
    (hf : foodItem ≠ "") (hs : station ≠ "") (hc : comment ≠ "")
    (h1 : 1 ≤ rating) (h5 : rating ≤ 5)
    (hfreshDb : ∀ p ∈ db, p.2.createdAt < now)
    (hfreshQ : ∀ q ∈ queue, q.sub.createdAt < now)
    (hflushOk : ∀ k, fails k = false) :
    (queue = [] →
      (reviewsPost ⟨db, nextId, queue, processing, cid⟩ now foodItem station rating comment reviewer imageUrl).2
        = PostResp.created nextId (mkReview foodItem station rating comment reviewer imageUrl now) ∧
      (reviewsPost ⟨db, nextId, queue, processing, cid⟩ now foodItem station rating comment reviewer imageUrl).1.db
        = db ++ [(nextId, mkReview foodItem station rating comment reviewer imageUrl now)] ∧
      ∃ rest,
        reviewsGet (db ++ [(nextId, mkReview foodItem station rating comment reviewer imageUrl now)])
            foodItem station allFieldsList
          = GetResp.ok (⟨nextId, some foodItem, some station, some rating, some comment,
              some reviewer, some imageUrl, some now, some true, some none⟩ :: rest)) ∧
    (queue ≠ [] →
      (reviewsPost ⟨db, nextId, queue, processing, cid⟩ now foodItem station rating comment reviewer imageUrl).2
        = PostResp.pending cid ∧
      (reviewsPost ⟨db, nextId, queue, processing, cid⟩ now foodItem station rating comment reviewer imageUrl).1.db
        = db ∧
      (reviewsPost ⟨db, nextId, queue, processing, cid⟩ now foodItem station rating comment reviewer imageUrl).1.queue
        = queue ++ [⟨mkReview foodItem station rating comment reviewer imageUrl now, cid⟩] ∧
      (flushLoop fails 0 db nextId
          (queue ++ [⟨mkReview foodItem station rating comment reviewer imageUrl now, cid⟩])).db
        = db ++ storedOf nextId queue
            ++ [(nextId + queue.length, mkReview foodItem station rating comment reviewer imageUrl now)] ∧
      (cid, CbResult.success (nextId + queue.length))
        ∈ (flushLoop fails 0 db nextId
            (queue ++ [⟨mkReview foodItem station rating comment reviewer imageUrl now, cid⟩])).calls ∧
      ∃ rest,
        reviewsGet
            (flushLoop fails 0 db nextId
              (queue ++ [⟨mkReview foodItem station rating comment reviewer imageUrl now, cid⟩])).db
            foodItem station allFieldsList
          = GetResp.ok (⟨nextId + queue.length, some foodItem, some station, some rating, some comment,
              some reviewer, some imageUrl, some now, some true, some none⟩ :: rest)) := by
  have h0 : rating ≠ 0 := by
    intro h
    rw [h] at h1
    norm_num at h1
  have hv : ¬(foodItem = "" ∨ station = "" ∨ rating = 0 ∨ comment = "") := by
    simp [hf, hs, hc, h0]
  have hrange : ¬(rating < 1 ∨ rating > 5) := by
    push_neg
    exact ⟨h1, h5⟩
  have hqx : getQuery foodItem station
      (nextId + queue.length, mkReview foodItem station rating comment reviewer imageUrl now) = true := by
    simp [getQuery, mkReview]
  constructor
  · intro hq
    subst hq
    refine ⟨?_, ?_, ?_⟩
    · unfold reviewsPost
      simp [hv, hrange, mkReview]
    · unfold reviewsPost
      simp [hv, hrange, mkReview]
    · have hqx0 : getQuery foodItem station
          (nextId, mkReview foodItem station rating comment reviewer imageUrl now) = true := by
        simp [getQuery, mkReview]
      obtain ⟨rest, hrest⟩ := reviewsGet_head db nextId
        (mkReview foodItem station rating comment reviewer imageUrl now)
        foodItem station hf hqx0
        (by
          intro y hy
          have := hfreshDb y hy
          simpa [mkReview] using this)
      refine ⟨rest, ?_⟩
      rw [hrest]
      rfl
  · intro hq
    have hupd : ({ mkReview foodItem station rating comment reviewer imageUrl now with
        isActive := true } : Review)
        = mkReview foodItem station rating comment reviewer imageUrl now := rfl
    have hstored : storedOf nextId
        (queue ++ [⟨mkReview foodItem station rating comment reviewer imageUrl now, cid⟩])
        = storedOf nextId queue
            ++ [(nextId + queue.length, mkReview foodItem station rating comment reviewer imageUrl now)] := by
      rw [storedOf_append]
      simp [storedOf, hupd]
    have hcalls : callsOf nextId
        (queue ++ [⟨mkReview foodItem station rating comment reviewer imageUrl now, cid⟩])
        = callsOf nextId queue ++ [(cid, CbResult.success (nextId + queue.length))] := by
      rw [callsOf_append]
      simp [callsOf]
    have hflush := flushLoop_success fails hflushOk
      ((queue ++ [(⟨mkReview foodItem station rating comment reviewer imageUrl now, cid⟩ : QItem)] : List QItem)).length
      (queue ++ [⟨mkReview foodItem station rating comment reviewer imageUrl now, cid⟩])
      le_rfl 0 db nextId
    have hfreshBase : ∀ y ∈ db ++ storedOf nextId queue,
        y.2.createdAt
          < (mkReview foodItem station rating comment reviewer imageUrl now).createdAt := by
      intro y hy
      rcases List.mem_append.mp hy with h | h
      · have := hfreshDb y h
        simpa [mkReview] using this
      · obtain ⟨qi, hqi, hye⟩ := mem_storedOf queue nextId y h
        have := hfreshQ qi hqi
        rw [hye]
        simpa [mkReview] using this
    refine ⟨?_, ?_, ?_, ?_, ?_, ?_⟩
    · unfold reviewsPost
      simp [hv, hrange, hq, mkReview]
    · unfold reviewsPost
      simp [hv, hrange, hq, mkReview]
    · unfold reviewsPost
      simp [hv, hrange, hq, mkReview]
    · simp only [hflush, hstored]
      rw [← List.append_assoc]
    · simp only [hflush, hcalls]
      exact List.mem_append_right _ (List.mem_singleton.mpr rfl)
    · obtain ⟨rest, hrest⟩ := reviewsGet_head (db ++ storedOf nextId queue)
        (nextId + queue.length)
        (mkReview foodItem station rating comment reviewer imageUrl now)
        foodItem station hf hqx hfreshBase
      refine ⟨rest, ?_⟩
      simp only [hflush, hstored]
      rw [← List.append_assoc, hrest]
      rfl

/-- C3 witness: posting a concrete review while one earlier submission sits
in the write buffer — the submission is enqueued, a successful flush stores
both records, delivers the success callback, and the review is read back
first by the GET; the direct-path conjunct holds vacuously here. -/
theorem post_create_then_get_returns_record_witness :
    (([⟨⟨"Tacos", "Grill Station", 3, "yum", "Anonymous", none, 3, true, none⟩, 7⟩] : List QItem) = [] →
      (reviewsPost ⟨[], 0, [⟨⟨"Tacos", "Grill Station", 3, "yum", "Anonymous", none, 3, true, none⟩, 7⟩], false, 9⟩
          5 "Pizza" "Grill Station" 4 "crispy" "Anonymous" none).2
        = PostResp.created 0 (mkReview "Pizza" "Grill Station" 4 "crispy" "Anonymous" none 5) ∧
      (reviewsPost ⟨[], 0, [⟨⟨"Tacos", "Grill Station", 3, "yum", "Anonymous", none, 3, true, none⟩, 7⟩], false, 9⟩
          5 "Pizza" "Grill Station" 4 "crispy" "Anonymous" none).1.db
        = [] ++ [(0, mkReview "Pizza" "Grill Station" 4 "crispy" "Anonymous" none 5)] ∧
      ∃ rest,
        reviewsGet ([] ++ [(0, mkReview "Pizza" "Grill Station" 4 "crispy" "Anonymous" none 5)])
            "Pizza" "Grill Station" allFieldsList
          = GetResp.ok (⟨0, some "Pizza", some "Grill Station", some 4, some "crispy",
              some "Anonymous", some none, some 5, some true, some none⟩ :: rest)) ∧
    (([⟨⟨"Tacos", "Grill Station", 3, "yum", "Anonymous", none, 3, true, none⟩, 7⟩] : List QItem) ≠ [] →
      (reviewsPost ⟨[], 0, [⟨⟨"Tacos", "Grill Station", 3, "yum", "Anonymous", none, 3, true, none⟩, 7⟩], false, 9⟩
          5 "Pizza" "Grill Station" 4 "crispy" "Anonymous" none).2
        = PostResp.pending 9 ∧
      (reviewsPost ⟨[], 0, [⟨⟨"Tacos", "Grill Station", 3, "yum", "Anonymous", none, 3, true, none⟩, 7⟩], false, 9⟩
          5 "Pizza" "Grill Station" 4 "crispy" "Anonymous" none).1.db
        = [] ∧
      (reviewsPost ⟨[], 0, [⟨⟨"Tacos", "Grill Station", 3, "yum", "Anonymous", none, 3, true, none⟩, 7⟩], false, 9⟩
          5 "Pizza" "Grill Station" 4 "crispy" "Anonymous" none).1.queue
        = [⟨⟨"Tacos", "Grill Station", 3, "yum", "Anonymous", none, 3, true, none⟩, 7⟩]
            ++ [⟨mkReview "Pizza" "Grill Station" 4 "crispy" "Anonymous" none 5, 9⟩] ∧
      (flushLoop (fun _ => false) 0 [] 0
          ([⟨⟨"Tacos", "Grill Station", 3, "yum", "Anonymous", none, 3, true, none⟩, 7⟩]
            ++ [⟨mkReview "Pizza" "Grill Station" 4 "crispy" "Anonymous" none 5, 9⟩])).db
        = [] ++ storedOf 0 [⟨⟨"Tacos", "Grill Station", 3, "yum", "Anonymous", none, 3, true, none⟩, 7⟩]
            ++ [(0 + ([⟨⟨"Tacos", "Grill Station", 3, "yum", "Anonymous", none, 3, true, none⟩, 7⟩] : List QItem).length,
                mkReview "Pizza" "Grill Station" 4 "crispy" "Anonymous" none 5)] ∧
      (9, CbResult.success
          (0 + ([⟨⟨"Tacos", "Grill Station", 3, "yum", "Anonymous", none, 3, true, none⟩, 7⟩] : List QItem).length))
        ∈ (flushLoop (fun _ => false) 0 [] 0
            ([⟨⟨"Tacos", "Grill Station", 3, "yum", "Anonymous", none, 3, true, none⟩, 7⟩]
              ++ [⟨mkReview "Pizza" "Grill Station" 4 "crispy" "Anonymous" none 5, 9⟩])).calls ∧
      ∃ rest,
        reviewsGet
            (flushLoop (fun _ => false) 0 [] 0
              ([⟨⟨"Tacos", "Grill Station", 3, "yum", "Anonymous", none, 3, true, none⟩, 7⟩]
                ++ [⟨mkReview "Pizza" "Grill Station" 4 "crispy" "Anonymous" none 5, 9⟩])).db
            "Pizza" "Grill Station" allFieldsList
          = GetResp.ok
              (⟨0 + ([⟨⟨"Tacos", "Grill Station", 3, "yum", "Anonymous", none, 3, true, none⟩, 7⟩] : List QItem).length,
                some "Pizza", some "Grill Station", some 4, some "crispy",
                some "Anonymous", some none, some 5, some true, some none⟩ :: rest)) :=
  post_create_then_get_returns_record [] 0 9 5
    [⟨⟨"Tacos", "Grill Station", 3, "yum", "Anonymous", none, 3, true, none⟩, 7⟩] false
    (fun _ => false) "Pizza" "Grill Station" 4 "crispy" "Anonymous" none
    (by decide) (by decide) (by decide) (by norm_num) (by norm_num)
    (by simp) (by decide) (fun _ => rfl)

/-! ### C7 and C10: cache behaviour of the foodItems route -/

/-- Looking up a key in a cache that does not contain it, after appending an
entry for that key, finds the new entry. -/
theorem cacheGet_append_of_none (c : Cache) (k : String) (e : CacheEntry)
    (h : c.find? (fun p => p.1 == k) = none) :
    cacheGet (c ++ [(k, e)]) k = some e := by
  induction c with
  | nil => simp [cacheGet, List.find?]
  | cons p rest ih =>
    rw [List.find?_cons] at h
    cases hp : (p.1 == k) with
    | true => rw [hp] at h; exact absurd h (by simp)
    | false =>
      rw [hp] at h
      unfold cacheGet at ih ⊢
      rw [List.cons_append, List.find?_cons, hp]
      exact ih h

/-- Looking up a key after the replace-in-place branch of `cache.set`. -/
theorem cacheGet_replace (c : Cache) (k : String) (e : CacheEntry) :
    cacheGet (c.map (fun p => if p.1 == k then (k, e) else p)) k
      = if (c.find? (fun p => p.1 == k)).isSome then some e else none := by
  induction c with
  | nil => simp [cacheGet, List.find?]
  | cons p rest ih =>
    unfold cacheGet at ih ⊢
    rw [List.map_cons]
    cases hp : (p.1 == k) with
    | true =>
      simp [hp]
    | false =>
      have hnp : ¬((p.1 == k) = true) := by simp [hp]
      rw [show (if false = true then (k, e) else p) = p from rfl]
      have hone : List.find? (fun q : String × CacheEntry => q.1 == k)
          (p :: List.map (fun q : String × CacheEntry => if q.1 == k then (k, e) else q) rest)
          = List.find? (fun q : String × CacheEntry => q.1 == k)
            (List.map (fun q : String × CacheEntry => if q.1 == k then (k, e) else q) rest) :=
        List.find?_cons_of_neg _ hnp
      have htwo : List.find? (fun q : String × CacheEntry => q.1 == k) (p :: rest)
          = List.find? (fun q : String × CacheEntry => q.1 == k) rest :=
        List.find?_cons_of_neg _ hnp
      rw [hone, htwo]
      exact ih

/-- `cache.set` makes the entry retrievable by `cache.get`. -/
theorem cacheGet_cacheSet (c : Cache) (k : String) (e : CacheEntry) :
    cacheGet (cacheSet c k e) k = some e := by
  unfold cacheSet
  by_cases h : (c.find? (fun p => p.1 == k)).isSome
  · rw [if_pos h, cacheGet_replace, if_pos h]
  · rw [if_neg h]
    exact cacheGet_append_of_none c k e (Option.not_isSome_iff_eq_none.mp h)

/-- C7: with no valid cache entry at the first read, a read at `t0` fills the
cache; a second read at `t1` within the TTL window returns the identical
response data even though a review was written in between; a third read at
`t2`, at or after the entry's expiry, recomputes the aggregates from the
collection that includes the new review. -/
theorem cache_ttl_staleness (c0 : Cache) (db0 : DB) (station : String)
    (x : Nat × Review) (t0 t1 t2 : Nat)
    (hmiss : validCacheHit c0 (cacheKeyFor station) t0 = none)
    (h1 : t1 < t0 + CACHE_TTL) (h2 : t0 + CACHE_TTL ≤ t2) :
    (foodItemsHandler (foodItemsHandler c0 db0 station false t0).1
        (db0 ++ [x]) station false t1).2.data
      = (foodItemsHandler c0 db0 station false t0).2.data ∧
    (foodItemsHandler
        (foodItemsHandler (foodItemsHandler c0 db0 station false t0).1
          (db0 ++ [x]) station false t1).1
        (db0 ++ [x]) station false t2).2.data.foodItems
      = aggregateFoodItems (db0 ++ [x]) station := by
  have hrun1 : foodItemsHandler c0 db0 station false t0
      = (cacheSet c0 (cacheKeyFor station)
          ⟨⟨aggregateFoodItems db0 station, (aggregateFoodItems db0 station).length, t0⟩,
            t0 + CACHE_TTL⟩,
         ⟨200, ⟨aggregateFoodItems db0 station, (aggregateFoodItems db0 station).length, t0⟩,
          false⟩) := by
    simp [foodItemsHandler, hmiss]
  have hhit : validCacheHit
      (cacheSet c0 (cacheKeyFor station)
        ⟨⟨aggregateFoodItems db0 station, (aggregateFoodItems db0 station).length, t0⟩,
          t0 + CACHE_TTL⟩)
      (cacheKeyFor station) t1
      = some ⟨⟨aggregateFoodItems db0 station, (aggregateFoodItems db0 station).length, t0⟩,
          t0 + CACHE_TTL⟩ := by
    unfold validCacheHit
    rw [cacheGet_cacheSet]
    simp [h1]
  have hrun2 : foodItemsHandler (foodItemsHandler c0 db0 station false t0).1
      (db0 ++ [x]) station false t1
      = ((foodItemsHandler c0 db0 station false t0).1,
         ⟨200, ⟨aggregateFoodItems db0 station, (aggregateFoodItems db0 station).length, t0⟩,
          true⟩) := by
    rw [hrun1]
    simp [foodItemsHandler, hhit]
  have hmiss3 : validCacheHit
      (cacheSet c0 (cacheKeyFor station)
        ⟨⟨aggregateFoodItems db0 station, (aggregateFoodItems db0 station).length, t0⟩,
          t0 + CACHE_TTL⟩)
      (cacheKeyFor station) t2 = none := by
    unfold validCacheHit
    rw [cacheGet_cacheSet]
    simp
    omega
  constructor
  · rw [hrun2, hrun1]
  · rw [hrun2, hrun1]
    simp [foodItemsHandler, hmiss3]

/-- C7 witness: two reads of a one-review collection inside the TTL window
agree although a second review was written in between; a read after expiry
reflects both reviews. -/
theorem cache_ttl_staleness_witness :
    (foodItemsHandler (foodItemsHandler [] [(0, sampleReview)] "" false 10).1
        ([(0, sampleReview)] ++ [(1, { sampleReview with rating := 1, createdAt := 15 })])
        "" false 20).2.data
      = (foodItemsHandler [] [(0, sampleReview)] "" false 10).2.data ∧
    (foodItemsHandler
        (foodItemsHandler (foodItemsHandler [] [(0, sampleReview)] "" false 10).1
          ([(0, sampleReview)] ++ [(1, { sampleReview with rating := 1, createdAt := 15 })])
          "" false 20).1
        ([(0, sampleReview)] ++ [(1, { sampleReview with rating := 1, createdAt := 15 })])
        "" false 300020).2.data.foodItems
      = aggregateFoodItems
          ([(0, sampleReview)] ++ [(1, { sampleReview with rating := 1, createdAt := 15 })]) "" :=
  cache_ttl_staleness [] [(0, sampleReview)] ""
    (1, { sampleReview with rating := 1, createdAt := 15 }) 10 20 300020
    rfl (by norm_num [CACHE_TTL]) (by norm_num [CACHE_TTL])

/-- C10: a GET with `refresh=true` leaves the cache exactly as it was and
returns freshly computed aggregates even though a valid cache entry for its
key exists; a later cache-using read within the original entry's TTL still
returns the old cached data. -/
theorem refresh_bypasses_cache (c : Cache) (db db2 : DB) (station : String)
    (t tLater : Nat) (e : CacheEntry)
    (hc : cacheGet c (cacheKeyFor station) = some e) (hv : tLater < e.expiry) :
    (foodItemsHandler c db station true t).1 = c ∧
    (foodItemsHandler c db station true t).2
      = ⟨200, ⟨aggregateFoodItems db station, (aggregateFoodItems db station).length, t⟩,
          false⟩ ∧
    (foodItemsHandler (foodItemsHandler c db station true t).1 db2 station false tLater).2.data
      = e.data := by
  have hrun : foodItemsHandler c db station true t
      = (c, ⟨200, ⟨aggregateFoodItems db station, (aggregateFoodItems db station).length, t⟩,
          false⟩) := by
    unfold foodItemsHandler
    simp
  have hhit : validCacheHit c (cacheKeyFor station) tLater = some e := by
    unfold validCacheHit
    rw [hc]
    simp [hv]
  refine ⟨by rw [hrun], by rw [hrun], ?_⟩
  rw [hrun]
  simp [foodItemsHandler, hhit]

/-- C10 witness: a refresh read against a cache holding a valid entry leaves
the entry in place, and a later cache-using read still serves the old
data. -/
theorem refresh_bypasses_cache_witness :
    (foodItemsHandler [("foodItems_all", ⟨⟨[], 0, 3⟩, 1000⟩)] [(0, sampleReview)] "" true 5).1
      = [("foodItems_all", ⟨⟨[], 0, 3⟩, 1000⟩)] ∧
    (foodItemsHandler [("foodItems_all", ⟨⟨[], 0, 3⟩, 1000⟩)] [(0, sampleReview)] "" true 5).2
      = ⟨200, ⟨aggregateFoodItems [(0, sampleReview)] "",
          (aggregateFoodItems [(0, sampleReview)] "").length, 5⟩, false⟩ ∧
    (foodItemsHandler
        (foodItemsHandler [("foodItems_all", ⟨⟨[], 0, 3⟩, 1000⟩)] [(0, sampleReview)] "" true 5).1
        [(0, sampleReview)] "" false 500).2.data
      = (⟨⟨[], 0, 3⟩, 1000⟩ : CacheEntry).data :=
  refresh_bypasses_cache [("foodItems_all", ⟨⟨[], 0, 3⟩, 1000⟩)] [(0, sampleReview)]
    [(0, sampleReview)] "" 5 500 ⟨⟨[], 0, 3⟩, 1000⟩ rfl (by norm_num)

/-! ### C9: handler responses to downstream failures -/

/-- C9 counterexample: the stations route with an unreachable database
answers a GET with status 200 and the hardcoded fallback list — it succeeds
with substitute data instead of responding with a generic 500. -/
theorem stations_failure_counterexample :
    stationsGet false [] 0 = StationsResp.list (fallbackStations 0) ∧
    (stationsGet false [] 0).status = 200 ∧
    (stationsGet false [] 0).status ≠ 500 := by
  refine ⟨rfl, rfl, by decide⟩

/-- C9 (amended): when the database is unreachable, the reviews route and
the foodItems route (when not served from cache) respond with a generic 500
and unchanged state, and the stations route does so for POST; the exception
is the stations GET path, which responds 200 with the hardcoded fallback
list instead. -/
theorem handler_failure_responses (st : ReviewsState) (now : Nat)
    (req : ReviewsRequest) (c : Cache) (db : DB) (station : String)
    (refresh : Bool) (t : Nat) (stations : List Station) (name : String)
    (tInit : Nat)
    (hmiss : validCacheHit c (cacheKeyFor station) t = none ∨ refresh = true) :
    (reviewsHandler false st now req).2 = ReviewsAnswer.serverError "An error occurred" ∧
    (reviewsHandler false st now req).1 = st ∧
    (foodItemsHandlerTotal false c db station refresh t).2.status = 500 ∧
    (stationsPost false stations name now).2
      = StationsResp.serverError "An error occurred" ∧
    stationsGet false stations tInit = StationsResp.list (fallbackStations tInit) := by
  refine ⟨by simp [reviewsHandler], by simp [reviewsHandler], ?_, rfl, rfl⟩
  unfold foodItemsHandlerTotal
  rcases hmiss with h | h
  · by_cases hr : refresh
    · simp [hr]
    · simp [hr, h]
  · simp [h]

/-- C9 witness: the failure responses at concrete requests. -/
theorem handler_failure_responses_witness :
    (reviewsHandler false ⟨[], 0, [], false, 0⟩ 1 (ReviewsRequest.get "Pizza" "" [])).2
      = ReviewsAnswer.serverError "An error occurred" ∧
    (reviewsHandler false ⟨[], 0, [], false, 0⟩ 1 (ReviewsRequest.get "Pizza" "" [])).1
      = ⟨[], 0, [], false, 0⟩ ∧
    (foodItemsHandlerTotal false [] [] "" false 0).2.status = 500 ∧
    (stationsPost false [] "Grill Station" 1).2
      = StationsResp.serverError "An error occurred" ∧
    stationsGet false [] 0 = StationsResp.list (fallbackStations 0) :=
  handler_failure_responses ⟨[], 0, [], false, 0⟩ 1
    (ReviewsRequest.get "Pizza" "" []) [] [] "" false 0 [] "Grill Station" 0
    (Or.inl rfl)

/-! ### C8: no concurrent successful submission is lost or duplicated -/

/-- The run invariant of the ingestion path: the collection is the initial
collection extended by exactly the successful submissions, and every arrived
submission is accounted for exactly once across the success list, the
failure list, the queue, the in-flight batch, and the submissions lost to a
failed batch. -/
def QInv (store0 arrived : List Nat) (st : QState) : Prop :=
  st.store = store0 ++ st.succeeded ∧
  ∀ x : Nat, st.succeeded.count x + st.failed.count x + st.queue.count x
      + (st.inflight.getD []).count x + st.lost.count x = arrived.count x

/-- Splitting a count at a take/drop boundary. -/
theorem count_take_drop (q : List Nat) (n : Nat) (x : Nat) :
    (q.take n).count x + (q.drop n).count x = q.count x := by
  conv_rhs => rw [← List.take_append_drop n q]
  rw [List.count_append]

/-- Every atomic segment preserves the run invariant. -/
theorem qstep_inv (store0 arrived : List Nat) (st : QState) (a : Action)
    (h : QInv store0 arrived st) :
    QInv store0 (arrived ++ arrivalsOf [a]) (qstep st a) := by
  obtain ⟨h1, h2⟩ := h
  cases a with
  | arrive s =>
    simp only [qstep]
    by_cases hq : st.queue = []
    · rw [if_neg (by simp [hq])]
      refine ⟨by rw [h1, List.append_assoc], fun x => ?_⟩
      have hx := h2 x
      simp only [arrivalsOf, List.filterMap_cons, List.filterMap_nil,
        List.count_append]
      omega
    · rw [if_pos (by simp [hq])]
      refine ⟨h1, fun x => ?_⟩
      have hx := h2 x
      simp only [arrivalsOf, List.filterMap_cons, List.filterMap_nil,
        List.count_append]
      omega
  | flushStart =>
    simp only [qstep]
    by_cases hc : ¬st.processing = true ∧ st.queue ≠ []
    · rw [if_pos hc]
      exact ⟨h1, fun x => by simpa [arrivalsOf] using h2 x⟩
    · rw [if_neg hc]
      exact ⟨h1, fun x => by simpa [arrivalsOf] using h2 x⟩
  | flushTake =>
    simp only [qstep]
    by_cases hc : st.processing = true ∧ st.inflight = none ∧ st.queue ≠ []
    · rw [if_pos hc]
      refine ⟨h1, fun x => ?_⟩
      have hx := h2 x
      have hsplit := count_take_drop st.queue BATCH_SIZE x
      rw [hc.2.1] at hx
      simp only [arrivalsOf, List.filterMap_cons, List.filterMap_nil,
        List.count_append, Option.getD, List.count_nil] at hx ⊢
      omega
    · rw [if_neg hc]
      exact ⟨h1, fun x => by simpa [arrivalsOf] using h2 x⟩
  | flushDone ok =>
    cases hinf : st.inflight with
    | none =>
      simp only [qstep, hinf]
      exact ⟨h1, fun x => by simpa [arrivalsOf] using h2 x⟩
    | some b =>
      cases ok with
      | true =>
        simp only [qstep, hinf, if_pos]
        refine ⟨by rw [h1, List.append_assoc], fun x => ?_⟩
        have hx := h2 x
        rw [hinf] at hx
        simp only [arrivalsOf, List.filterMap_cons, List.filterMap_nil,
          List.count_append, Option.getD, List.count_nil] at hx ⊢
        omega
      | false =>
        simp only [qstep, hinf]
        rw [if_neg (by simp)]
        refine ⟨h1, fun x => ?_⟩
        have hx := h2 x
        rw [hinf] at hx
        simp only [arrivalsOf, List.filterMap_cons, List.filterMap_nil,
          List.count_append, Option.getD, List.count_nil] at hx ⊢
        omega
  | flushEnd =>
    simp only [qstep]
    by_cases hc : st.processing = true ∧ st.inflight = none ∧ st.queue = []
    · rw [if_pos hc]
      exact ⟨h1, fun x => by simpa [arrivalsOf] using h2 x⟩
    · rw [if_neg hc]
      exact ⟨h1, fun x => by simpa [arrivalsOf] using h2 x⟩

/-- The arrivals of a schedule decompose at its head. -/
theorem arrivalsOf_cons (a : Action) (tr : List Action) :
    arrivalsOf (a :: tr) = arrivalsOf [a] ++ arrivalsOf tr := by
  cases a <;> simp [arrivalsOf]

/-- The run invariant holds along any schedule. -/
theorem runTrace_inv (store0 : List Nat) (tr : List Action) (st : QState)
    (arrived : List Nat) (h : QInv store0 arrived st) :
    QInv store0 (arrived ++ arrivalsOf tr) (runTrace st tr) := by
  induction tr generalizing st arrived with
  | nil => simpa [runTrace, arrivalsOf] using h
  | cons a rest ih =>
    have hstep := qstep_inv store0 arrived st a h
    have hrest := ih (qstep st a) (arrived ++ arrivalsOf [a]) hstep
    rw [arrivalsOf_cons, ← List.append_assoc]
    simpa [runTrace] using hrest

/-- C8: along any event-loop schedule starting from the module's initial
state, if the arriving submissions are distinct, no batch insert fails, and
every arrived submission ends up with a success response, then the
collection has grown by exactly the number of arrivals and consists of the
initial records plus exactly one copy of each arrival — none lost, none
duplicated. -/
theorem concurrent_posts_all_persisted (store0 : List Nat) (tr : List Action)
    (hnodup : (arrivalsOf tr).Nodup)
    (_hnofail : Action.flushDone false ∉ tr)
    (hall : ∀ s ∈ arrivalsOf tr, s ∈ (runTrace (initQState store0) tr).succeeded) :
    (runTrace (initQState store0) tr).store.length
      = store0.length + (arrivalsOf tr).length ∧
    ((runTrace (initQState store0) tr).store : Multiset Nat)
      = (store0 : Multiset Nat) + (arrivalsOf tr : Multiset Nat) := by
  have hinv0 : QInv store0 [] (initQState store0) := by
    refine ⟨by simp [initQState], by intro x; simp [initQState]⟩
  have hinv := runTrace_inv store0 tr (initQState store0) [] hinv0
  rw [List.nil_append] at hinv
  obtain ⟨hstore, hcount⟩ := hinv
  have hsucc : ∀ x : Nat,
      (runTrace (initQState store0) tr).succeeded.count x = (arrivalsOf tr).count x := by
    intro x
    have hx := hcount x
    by_cases hmem : x ∈ arrivalsOf tr
    · have h1 : (arrivalsOf tr).count x = 1 :=
        List.count_eq_one_of_mem hnodup hmem
      have h2 : 1 ≤ (runTrace (initQState store0) tr).succeeded.count x :=
        List.one_le_count_iff.mpr (hall x hmem)
      omega
    · have h0 : (arrivalsOf tr).count x = 0 := List.count_eq_zero.mpr hmem
      omega
  have hms : ((runTrace (initQState store0) tr).succeeded : Multiset Nat)
      = (arrivalsOf tr : Multiset Nat) := by
    ext x
    rw [Multiset.coe_count, Multiset.coe_count]
    exact hsucc x
  constructor
  · have hlen : (runTrace (initQState store0) tr).succeeded.length
        = (arrivalsOf tr).length := by
      have := congrArg Multiset.card hms
      simpa [Multiset.coe_card] using this
    rw [hstore, List.length_append, hlen]
  · rw [hstore]
    rw [show ((store0 ++ (runTrace (initQState store0) tr).succeeded : List Nat) : Multiset Nat)
        = (store0 : Multiset Nat) + ((runTrace (initQState store0) tr).succeeded : Multiset Nat)
      from by rw [← Multiset.coe_add]]
    rw [hms]

/-- C8 witness: a concrete schedule of two distinct arrivals interleaved
with a (vacuous) flush cycle grows a one-record collection to three records,
one per arrival. -/
theorem concurrent_posts_all_persisted_witness :
    (runTrace (initQState [5])
        [Action.arrive 1, Action.arrive 2, Action.flushStart, Action.flushTake,
          Action.flushDone true, Action.flushEnd]).store.length
      = [5].length + (arrivalsOf [Action.arrive 1, Action.arrive 2, Action.flushStart,
          Action.flushTake, Action.flushDone true, Action.flushEnd]).length ∧
    ((runTrace (initQState [5])
        [Action.arrive 1, Action.arrive 2, Action.flushStart, Action.flushTake,
          Action.flushDone true, Action.flushEnd]).store : Multiset Nat)
      = (([5] : List Nat) : Multiset Nat)
        + ((arrivalsOf [Action.arrive 1, Action.arrive 2, Action.flushStart,
            Action.flushTake, Action.flushDone true, Action.flushEnd] : List Nat) : Multiset Nat) :=
  concurrent_posts_all_persisted [5]
    [Action.arrive 1, Action.arrive 2, Action.flushStart, Action.flushTake,
      Action.flushDone true, Action.flushEnd]
    (by decide) (by decide) (by decide)

end RateLowry
